import Mathlib

/-!
Verification of the QR code generator service (settermjd/go-qr-code-generator).

The development shallowly embeds `src/main.go`: the handler `handleRequest`, the
`simpleQRCode` methods `Generate`, `GenerateWithWatermark` and `addWatermark`,
the helpers `resizeWatermark`, `uploadWatermarkImage` and `createErrorResponse`,
and the parts of the Go standard library and external packages the program
relies on (`image/draw` compositing with clipping, `net/http` response-writer
status semantics, `strconv.Atoi`, `encoding/json` marshalling of a string map).
External collaborators that are not part of the repository (the skip2/go-qrcode
encoder, the image/png codec, the nfnt/resize resizer) are modelled from the
contracts the specification assigns to them.
-/

set_option autoImplicit false

namespace QRService

/-! ### Geometry: image.Point and image.Rectangle -/

/-- The Go `image.Point`: a pair of integer coordinates. -/
structure Pt where
  x : Int
  y : Int
deriving DecidableEq

def Pt.zero : Pt := { x := 0, y := 0 }

def Pt.add (p q : Pt) : Pt := { x := p.x + q.x, y := p.y + q.y }

def Pt.sub (p q : Pt) : Pt := { x := p.x - q.x, y := p.y - q.y }

/-- The Go `image.Rectangle`: min-inclusive, max-exclusive integer rectangle. -/
structure Rect where
  min : Pt
  max : Pt
deriving DecidableEq

/-- Rectangle translation, `image.Rectangle.Add`. -/
def Rect.add (r : Rect) (p : Pt) : Rect := { min := r.min.add p, max := r.max.add p }

/-- Rectangle intersection, `image.Rectangle.Intersect`.  Go returns the zero
rectangle when the intersection is empty; for membership purposes the
max-of-mins / min-of-maxs rectangle is equivalent, since a rectangle whose min
is not strictly below its max contains no points. -/
def Rect.inter (r s : Rect) : Rect :=
  { min := { x := Max.max r.min.x s.min.x, y := Max.max r.min.y s.min.y }
    max := { x := Min.min r.max.x s.max.x, y := Min.min r.max.y s.max.y } }

/-- Membership of a point in a rectangle, `image.Point.In`. -/
def Rect.Mem (r : Rect) (p : Pt) : Prop :=
  r.min.x ≤ p.x ∧ p.x < r.max.x ∧ r.min.y ≤ p.y ∧ p.y < r.max.y

instance (r : Rect) (p : Pt) : Decidable (Rect.Mem r p) := by
  unfold Rect.Mem
  exact inferInstance

/-! ### Colors and alpha compositing -/

/-- An alpha-premultiplied color with 16-bit channels, as produced by Go's
`color.Color.RGBA()` and consumed by the `image/draw` compositing arithmetic.
The 8-bit quantisation that `image.RGBA` storage applies on top of this
arithmetic is not modelled; the claims under verification constrain the
compositing geometry and the blend operation, not the storage word size. -/
structure Color where
  r : Nat
  g : Nat
  b : Nat
  a : Nat
deriving DecidableEq

def zeroColor : Color := { r := 0, g := 0, b := 0, a := 0 }

/-- Porter-Duff source-over blending exactly as in Go's `image/draw` generic
path: each output channel is `s + d * (0xffff - sa) / 0xffff` with integer
division. -/
def overBlend (s d : Color) : Color :=
  let m := 65535 - s.a
  { r := s.r + d.r * m / 65535
    g := s.g + d.g * m / 65535
    b := s.b + d.b * m / 65535
    a := s.a + d.a * m / 65535 }

/-! ### Images and image/draw -/

/-- A decoded raster image: a bounds rectangle and a total pixel function.
Points outside the bounds read as the zero color for images produced by
`image.NewRGBA`, matching Go. -/
structure Image where
  bounds : Rect
  pix : Pt → Color

/-- The Go `image.NewRGBA`: an image over the given bounds whose pixels are all
zero. -/
def newRGBA (b : Rect) : Image := { bounds := b, pix := fun _ => zeroColor }

/-- The two compositing operators the program uses, `draw.Src` and
`draw.Over`. -/
inductive Op
  | src
  | over

/-- The Go `draw.Draw(dst, r, src, sp, op)`.  Following the `clip` step of
`image/draw`, the affected region is `r` intersected with the destination
bounds and with the source bounds translated by `r.Min - sp`; inside the
region, the destination pixel at `p` is combined with the source pixel at
`sp + (p - r.Min)`; outside it, the destination is untouched.  The result
keeps the destination bounds. -/
def drawDraw (dst : Image) (r : Rect) (src : Image) (sp : Pt) (op : Op) : Image :=
  let region := Rect.inter (Rect.inter r dst.bounds) (Rect.add src.bounds (Pt.sub r.min sp))
  { bounds := dst.bounds
    pix := fun p =>
      if Rect.Mem region p then
        match op with
        | Op.src => src.pix (Pt.add sp (Pt.sub p r.min))
        | Op.over => overBlend (src.pix (Pt.add sp (Pt.sub p r.min))) (dst.pix p)
      else dst.pix p }

/-! ### Byte strings and the raster codec -/

/-- Encoded byte strings flowing through the pipeline.  Modelled from the spec:
the Raster Codec (spec 4.2) is a collaborator with `Decode`, `Encode` and
`SniffFormat`; a byte string is either a well-formed PNG encoding of an image
or non-PNG bytes. -/
inductive Bytes
  | png (img : Image)
  | raw (data : List Nat)

/-- Modelled from the spec: `Decode` of the Raster Codec (spec 4.2), the
program calls it as `png.Decode`.  Succeeds exactly on well-formed PNG bytes
and round-trips with `pngEncode` (spec 8, round-trip property). -/
def pngDecode : Bytes → Except String Image
  | Bytes.png img => Except.ok img
  | Bytes.raw _ => Except.error "png: invalid format: not a PNG file"

/-- Modelled from the spec: `Encode` of the Raster Codec (spec 4.2), the
program calls it as `png.Encode`. -/
def pngEncode (img : Image) : Bytes := Bytes.png img

/-- Modelled from the spec: `SniffFormat` (spec 4.2), the program calls it as
`http.DetectContentType`.  Classifies the leading bytes; PNG encodings sniff
as `image/png`, anything else as a non-matching label. -/
def detectContentType : Bytes → String
  | Bytes.png _ => "image/png"
  | Bytes.raw _ => "text/plain; charset=utf-8"

/-! ### External collaborators: QR encoder and resizer -/

/-- The constant `WATERMARK_WIDTH` from main.go. -/
def WATERMARK_WIDTH : Nat := 64

/-- The constant `MAX_UPLOAD_SIZE` from main.go. -/
def MAX_UPLOAD_SIZE : Nat := 1024 * 1024

/-- Modelled from the spec: the square raster symbol produced by the external
QR encoder collaborator (spec 4.1), a deterministic square raster of side
`size` pixels encoding the content at the Medium error-correction level.  The
concrete pixel pattern is a deterministic stand-in; no claim constrains the
symbol pixels themselves. -/
def qrSymbol (content : String) (size : Int) : Image :=
  { bounds := { min := Pt.zero, max := { x := size, y := size } }
    pix := fun p =>
      if (p.x + p.y + content.length) % 2 = 0 then
        { r := 0, g := 0, b := 0, a := 65535 }
      else
        { r := 65535, g := 65535, b := 65535, a := 65535 } }

/-- Modelled from the spec: the maximum content length the external QR encoder
can encode at all — the byte-mode capacity of the largest (version 40) QR
symbol at the Medium error-correction level used by the program. -/
def qrMaxContentLen : Nat := 2331

/-- Modelled from the spec: `qrcode.Encode` of the external skip2/go-qrcode
collaborator (spec 4.1): deterministically produces the PNG bytes of a square
raster of side `size` encoding `content`, and fails with an encoding error
when the content cannot be encoded: empty content, or content longer than the
Medium-level capacity `qrMaxContentLen` of the largest QR symbol.  A size too
small for the content is not modelled as a failure: the deployed encoder
silently returns an image instead of an error in that case, so the failure
mode is carried by the content alone. -/
def qrcodeEncode (content : String) (size : Int) : Except String Bytes :=
  if content = "" then Except.error "no content to encode"
  else if qrMaxContentLen < content.length then Except.error "content too long to encode"
  else Except.ok (pngEncode (qrSymbol content size))

/-- Modelled from the spec: the Resizer collaborator (spec 4.3), called as
`resize.Resize(width, 0, img, resize.Lanczos3)` in main.go: scales to the
target width, the zero target height meaning that the height is derived from
the aspect ratio.  The resampled pixel values are a deterministic stand-in;
no claim constrains them. -/
def resizeImage (width : Nat) (img : Image) : Image :=
  let w : Int := img.bounds.max.x - img.bounds.min.x
  let h : Int := img.bounds.max.y - img.bounds.min.y
  let height : Int := if w = 0 then 0 else Int.tdiv ((width : Int) * h) w
  { bounds := { min := Pt.zero, max := { x := (width : Int), y := height } }
    pix := fun p =>
      img.pix { x := img.bounds.min.x + Int.tdiv (p.x * w) (width : Int)
                y := img.bounds.min.y + Int.tdiv (p.y * h) (Max.max height 1) } }

/-! ### simpleQRCode and its methods (main.go lines 26-89) -/

/-- The `simpleQRCode` struct of main.go. -/
structure simpleQRCode where
  Content : String
  Size : Int
deriving DecidableEq

/-- Method `simpleQRCode.Generate` (main.go lines 32-38). -/
def simpleQRCode.Generate (code : simpleQRCode) : Except String Bytes :=
  match qrcodeEncode code.Content code.Size with
  | Except.error e => Except.error ("could not generate a QR code: " ++ e)
  | Except.ok qrCode => Except.ok qrCode

/-- The centering offset of main.go line 70:
`image.Pt(((size / 2) - 32), ((size / 2) - 32))`.  Go integer division
truncates toward zero, which is `Int.tdiv`. -/
def addWatermarkOffset (size : Int) : Pt :=
  { x := Int.tdiv size 2 - 32, y := Int.tdiv size 2 - 32 }

/-- Method `simpleQRCode.addWatermark` (main.go lines 58-89): decode the QR code PNG,
decode the watermark PNG, allocate an RGBA buffer over the QR code bounds,
source-copy the QR code into it, over-composite the watermark at the centering
offset, and re-encode.  The method does not read its receiver. -/
def simpleQRCode.addWatermark (code : simpleQRCode) (qrCode : Bytes)
    (watermarkData : Bytes) (size : Int) : Except String Bytes :=
  match pngDecode qrCode with
  | Except.error e => Except.error ("could not decode QR code: " ++ e)
  | Except.ok qrCodeData =>
    match pngDecode watermarkData with
    | Except.error e => Except.error ("could not decode watermark: " ++ e)
    | Except.ok watermarkImage =>
      Except.ok (pngEncode
        (drawDraw
          (drawDraw (newRGBA qrCodeData.bounds) qrCodeData.bounds qrCodeData Pt.zero Op.src)
          (Rect.add watermarkImage.bounds (addWatermarkOffset size))
          watermarkImage Pt.zero Op.over))

/-- Method `simpleQRCode.GenerateWithWatermark` (main.go lines 43-55). -/
def simpleQRCode.GenerateWithWatermark (code : simpleQRCode) (watermark : Bytes) :
    Except String Bytes :=
  match code.Generate with
  | Except.error e => Except.error e
  | Except.ok qrCode =>
    match code.addWatermark qrCode watermark code.Size with
    | Except.error e => Except.error ("could not add watermark to QR code: " ++ e)
    | Except.ok qrCode2 => Except.ok qrCode2

/-! ### State-passing views of the methods

The Go methods take a pointer receiver, so mutation of `Content` or `Size`
would be visible to the caller.  The state-passing variants below thread the
receiver exactly as the pointer flows through the Go calls and return it
alongside the result, making the frame property statable. -/

def simpleQRCode.GenerateSt (code : simpleQRCode) : simpleQRCode × Except String Bytes :=
  (code, code.Generate)

def simpleQRCode.addWatermarkSt (code : simpleQRCode) (qrCode : Bytes)
    (watermarkData : Bytes) (size : Int) : simpleQRCode × Except String Bytes :=
  (code, code.addWatermark qrCode watermarkData size)

def simpleQRCode.GenerateWithWatermarkSt (code : simpleQRCode) (watermark : Bytes) :
    simpleQRCode × Except String Bytes :=
  let res := code.GenerateSt
  match res.2 with
  | Except.error e => (res.1, Except.error e)
  | Except.ok qrCode =>
    let res2 := res.1.addWatermarkSt qrCode watermark res.1.Size
    match res2.2 with
    | Except.error e => (res2.1, Except.error ("could not add watermark to QR code: " ++ e))
    | Except.ok qrCode2 => (res2.1, Except.ok qrCode2)

/-! ### resizeWatermark and uploadWatermarkImage (main.go lines 92-113) -/

/-- Function `resizeWatermark` (main.go lines 92-103). -/
def resizeWatermark (watermark : Bytes) (width : Nat) : Except String Bytes :=
  match pngDecode watermark with
  | Except.error e => Except.error ("could not decode watermark image: " ++ e)
  | Except.ok decodedImage => Except.ok (pngEncode (resizeImage width decodedImage))

/-- A `multipart.File` value as `handleRequest` passes it to
`uploadWatermarkImage`: either the nil interface value (when
`request.FormFile` failed) or an open file with its contents, together with
whether reading it back fails. -/
inductive GoFile
  | nil
  | file (contents : Bytes) (readFails : Bool)

/-- A Go panic surfaced by the runtime. -/
inductive GoPanic
  | nilInterfaceDeref

/-- Function `uploadWatermarkImage` (main.go lines 106-113): `io.Copy` of the file into
a buffer.  Calling `Read` on the nil interface value panics at runtime; a
present file either copies completely or the copy returns an error, which the
function wraps. -/
def uploadWatermarkImage : GoFile → Except GoPanic (Except String Bytes)
  | GoFile.nil => Except.error GoPanic.nilInterfaceDeref
  | GoFile.file _ true =>
      Except.ok (Except.error "could not copy the watermark file into memory")
  | GoFile.file contents false => Except.ok (Except.ok contents)

/-! ### strconv.Atoi -/

/-- The Go `strconv.Atoi`: an optional sign followed by at least one decimal
digit, with the parsed value required to fit in a 64-bit int.  Returns `none`
exactly when Atoi returns a non-nil error. -/
def goAtoi (s : String) : Option Int :=
  let signed : Int × List Char :=
    match s.data with
    | '+' :: rest => (1, rest)
    | '-' :: rest => (-1, rest)
    | l => (1, l)
  if signed.2 = [] then none
  else if signed.2.all Char.isDigit then
    let n : Nat := signed.2.foldl (fun acc c => acc * 10 + (c.toNat - 48)) 0
    let v : Int := signed.1 * n
    if v < -(2 ^ 63) ∨ 2 ^ 63 - 1 < v then none else some v
  else none

/-- The text of the error value Atoi returns on a syntax failure, as
interpolated by `fmt.Sprint` in the size error message. -/
def atoiErrText (s : String) : String :=
  "strconv.Atoi: parsing \"" ++ (s ++ "\": invalid syntax")

/-! ### encoding/json and createErrorResponse (main.go lines 117-127) -/

/-- Hexadecimal digit character, lower case, as `encoding/json` uses in
`\u00XX` escapes. -/
def hexDigit (n : Nat) : Char :=
  if n < 10 then Char.ofNat (48 + n) else Char.ofNat (87 + n)

/-- Escaping of one character inside a JSON string as Go `encoding/json`
performs it with the default HTML escaping: quote, backslash, newline,
carriage return and tab get two-character escapes, the HTML characters and
remaining control characters get `\u00XX` escapes, and the line and paragraph
separators get ` ` and ` `. -/
def jsonEscapeChar (c : Char) : List Char :=
  if c = '"' then ['\\', '"']
  else if c = '\\' then ['\\', '\\']
  else if c = '\n' then ['\\', 'n']
  else if c = '\r' then ['\\', 'r']
  else if c = '\t' then ['\\', 't']
  else if c = '<' then ['\\', 'u', '0', '0', '3', 'c']
  else if c = '>' then ['\\', 'u', '0', '0', '3', 'e']
  else if c = '&' then ['\\', 'u', '0', '0', '2', '6']
  else if c.toNat < 32 then ['\\', 'u', '0', '0', hexDigit (c.toNat / 16), hexDigit (c.toNat % 16)]
  else if c.toNat = 8232 then ['\\', 'u', '2', '0', '2', '8']
  else if c.toNat = 8233 then ['\\', 'u', '2', '0', '2', '9']
  else [c]

/-- JSON string-body escaping, character by character. -/
def jsonEscape (s : String) : String :=
  String.mk (s.data.map jsonEscapeChar).flatten

/-- Modelled from Go `encoding/json`: `json.Marshal` of a one-key
`map[string]string`.  Marshalling a map from string to string never fails, so
the result is always `Except.ok`. -/
def jsonMarshalStringOne (key value : String) : Except String String :=
  Except.ok ("\x7b\"" ++ (jsonEscape key ++ ("\":\"" ++ (jsonEscape value ++ "\"\x7d"))))

/-- The JSON error payload the service produces for a message. -/
def errorJson (message : String) : String :=
  "\x7b\"error\":\"" ++ (jsonEscape message ++ "\"\x7d")

/-- Function `createErrorResponse` (main.go lines 117-127).  The `log.Fatalln` branch
terminates the process without returning, modelled as `none`. -/
def createErrorResponse (message : String) : Option String :=
  match jsonMarshalStringOne "error" message with
  | Except.error _ => none
  | Except.ok jsonResp => some jsonResp

/-! ### net/http response writer -/

/-- A chunk written to the response body: either a JSON payload or encoded
image bytes. -/
inductive Chunk
  | json (s : String)
  | image (b : Bytes)

/-- The observable state of an `http.ResponseWriter`.  Per net/http, the first
`Write` triggers an implicit `WriteHeader(200)` when no status has been sent,
and any `WriteHeader` after the status has been sent is ignored as
superfluous. -/
structure ResponseWriter where
  status : Option Nat
  contentType : List String
  body : List Chunk

/-- The Go `writer.Write(chunk)`: sends the implicit 200 status if none was sent yet
and appends the chunk to the body. -/
def ResponseWriter.write (w : ResponseWriter) (c : Chunk) : ResponseWriter :=
  { w with status := some (w.status.getD 200), body := w.body ++ [c] }

/-- The Go `writer.WriteHeader(code)`: sets the status, unless one was already
sent. -/
def ResponseWriter.writeHeader (w : ResponseWriter) (code : Nat) : ResponseWriter :=
  match w.status with
  | some _ => w
  | none => { w with status := some code }

/-- The Go `writer.Header().Add("Content-Type", v)`. -/
def ResponseWriter.addContentType (w : ResponseWriter) (v : String) : ResponseWriter :=
  { w with contentType := w.contentType ++ [v] }

/-! ### The request and handleRequest (main.go lines 129-196) -/

/-- The outcome of `request.FormFile("watermark")`. -/
inductive FormFileError
  | missingFile
  | other
deriving DecidableEq

/-- The watermark form field of a request, as `request.FormFile` reports it:
absent (`http.ErrMissingFile`), failing with a different error (nil file), or
a successfully opened upload. -/
inductive FormFileResult
  | missing
  | otherErr
  | ok (contents : Bytes) (readFails : Bool)

/-- The request data `handleRequest` consumes: the two form values and the
watermark file field. -/
structure Request where
  url : String
  size : String
  watermark : FormFileResult

/-- The call `request.FormFile("watermark")`: the returned file and error.  When the
call fails, the returned file is the nil interface value. -/
def Request.formFileWatermark : Request → GoFile × Option FormFileError
  | { watermark := FormFileResult.missing, .. } => (GoFile.nil, some FormFileError.missingFile)
  | { watermark := FormFileResult.otherErr, .. } => (GoFile.nil, some FormFileError.other)
  | { watermark := FormFileResult.ok contents readFails, .. } =>
      (GoFile.file contents readFails, none)

/-- The result of one run of `handleRequest`: either a response (with a flag
recording whether the QR encoder was invoked during the run), a runtime
panic, or process death through `log.Fatalln`. -/
inductive HandlerOutcome
  | resp (w : ResponseWriter) (encoderRan : Bool)
  | panicked
  | fatal

/-- The error-reporting idiom of `handleRequest`: write the JSON error body,
then call `WriteHeader(400)`.  The write precedes the `WriteHeader` call
exactly as in the source. -/
def respondError (writer : ResponseWriter) (message : String) (encoderRan : Bool) :
    HandlerOutcome :=
  match createErrorResponse message with
  | none => HandlerOutcome.fatal
  | some body =>
      HandlerOutcome.resp ((writer.write (Chunk.json body)).writeHeader 400) encoderRan

/-- The fresh response writer a request starts with. -/
def freshWriter : ResponseWriter := { status := none, contentType := [], body := [] }

/-- Function `handleRequest` (main.go lines 129-196), step for step: validate `url`,
parse `size` with Atoi, branch on the watermark form file (taking the
no-watermark branch exactly when the FormFile error is `http.ErrMissingFile`),
copy the upload, compute (and discard) the content type — the source then
tests the stale upload error, so the PNG check never fires — resize the
watermark, and generate the final image. -/
def handleRequest (request : Request) : HandlerOutcome :=
  let writer := freshWriter
  let size := request.size
  let url := request.url
  if url = "" then
    respondError writer "Could not determine the desired QR code content." false
  else
    match goAtoi size with
    | none =>
        respondError writer
          ("Could not determine the desired QR code size:" ++ atoiErrText size) false
    | some qrCodeSize =>
      let qrCode : simpleQRCode := { Content := url, Size := qrCodeSize }
      let ff := request.formFileWatermark
      -- the source guard is `err != nil && errors.Is(err, http.ErrMissingFile)`,
      -- which holds exactly when FormFile returned ErrMissingFile
      match ff.2 with
      | some FormFileError.missingFile =>
        match qrCode.Generate with
        | Except.error e =>
            respondError writer ("Could not generate QR code. " ++ e) true
        | Except.ok codeData =>
            HandlerOutcome.resp
              ((writer.addContentType "image/png").write (Chunk.image codeData)) true
      | _ =>
        match uploadWatermarkImage ff.1 with
        | Except.error _ => HandlerOutcome.panicked
        | Except.ok (Except.error _) =>
            respondError writer "Could not upload the watermark image." false
        | Except.ok (Except.ok watermark) =>
          let contentType := detectContentType watermark
          let _ := contentType
          match resizeWatermark watermark WATERMARK_WIDTH with
          | Except.error _ =>
              respondError writer "Could not resize the watermark image." false
          | Except.ok watermark2 =>
            match qrCode.GenerateWithWatermark watermark2 with
            | Except.error e =>
                respondError writer
                  ("Could not generate QR code with the provided watermark image: " ++ e) true
            | Except.ok fileData =>
                HandlerOutcome.resp (writer.write (Chunk.image fileData)) true

/-! ### Helper lemmas on points and rectangles -/

theorem Pt.sub_zero_eq (p : Pt) : Pt.sub p Pt.zero = p := by
  cases p
  simp [Pt.sub, Pt.zero]

theorem Pt.zero_add_eq (p : Pt) : Pt.add Pt.zero p = p := by
  cases p
  simp [Pt.add, Pt.zero]

theorem Pt.add_zero_eq (p : Pt) : Pt.add p Pt.zero = p := by
  cases p
  simp [Pt.add, Pt.zero]

theorem Rect.translate_zero (r : Rect) : Rect.add r Pt.zero = r := by
  cases r
  simp [Rect.add, Pt.add_zero_eq]

theorem Rect.mem_inter {r s : Rect} {p : Pt} :
    Rect.Mem (Rect.inter r s) p ↔ Rect.Mem r p ∧ Rect.Mem s p := by
  simp only [Rect.Mem, Rect.inter, max_le_iff, lt_min_iff]
  tauto

theorem Rect.mem_add {r : Rect} {q p : Pt} :
    Rect.Mem (Rect.add r q) p ↔ Rect.Mem r (Pt.sub p q) := by
  simp only [Rect.Mem, Rect.add, Pt.add, Pt.sub]
  omega

/-- The first `draw.Draw` call of `addWatermark` (with `draw.Src`, source point
zero and region equal to the full destination bounds) copies the base image
pixelwise when the base bounds have min `(0, 0)`, and leaves the zero color
everywhere else. -/
theorem drawSrc_pix (base : Image) (hb : base.bounds.min = Pt.zero) (p : Pt) :
    (drawDraw (newRGBA base.bounds) base.bounds base Pt.zero Op.src).pix p
      = if Rect.Mem base.bounds p then base.pix p else zeroColor := by
  have hregion : Rect.Mem (Rect.inter (Rect.inter base.bounds (newRGBA base.bounds).bounds)
      (Rect.add base.bounds (Pt.sub base.bounds.min Pt.zero))) p ↔ Rect.Mem base.bounds p := by
    rw [Rect.mem_inter, Rect.mem_inter, Rect.mem_add, hb, Pt.sub_zero_eq, Pt.sub_zero_eq]
    simp only [newRGBA]
    tauto
  show (if Rect.Mem _ p then base.pix (Pt.add Pt.zero (Pt.sub p base.bounds.min)) else zeroColor)
      = _
  rw [if_congr hregion rfl rfl, hb, Pt.sub_zero_eq, Pt.zero_add_eq]

/-- The second `draw.Draw` call of `addWatermark` (with `draw.Over`, source
point zero and region the watermark bounds translated by the offset)
over-blends the watermark inside the translated footprint intersected with the
destination bounds, and leaves the destination untouched elsewhere, when the
watermark bounds have min `(0, 0)`. -/
theorem drawOver_pix (dst wm : Image) (off : Pt) (hw : wm.bounds.min = Pt.zero) (p : Pt) :
    (drawDraw dst (Rect.add wm.bounds off) wm Pt.zero Op.over).pix p
      = if Rect.Mem (Rect.add wm.bounds off) p ∧ Rect.Mem dst.bounds p
        then overBlend (wm.pix (Pt.sub p off)) (dst.pix p)
        else dst.pix p := by
  have hmin : (Rect.add wm.bounds off).min = off := by
    show Pt.add wm.bounds.min off = off
    rw [hw, Pt.zero_add_eq]
  have hregion : Rect.Mem (Rect.inter (Rect.inter (Rect.add wm.bounds off) dst.bounds)
      (Rect.add wm.bounds (Pt.sub (Rect.add wm.bounds off).min Pt.zero))) p
      ↔ Rect.Mem (Rect.add wm.bounds off) p ∧ Rect.Mem dst.bounds p := by
    rw [Rect.mem_inter, Rect.mem_inter, hmin, Pt.sub_zero_eq]
    tauto
  show (if Rect.Mem _ p
      then overBlend (wm.pix (Pt.add Pt.zero (Pt.sub p (Rect.add wm.bounds off).min))) (dst.pix p)
      else dst.pix p) = _
  rw [if_congr hregion rfl rfl, hmin, Pt.zero_add_eq]

/-! ### Claim theorems -/

/-- Claim C1 is refuted by the code: on a failing request (here: missing url),
`handleRequest` writes the JSON error body *before* calling
`WriteHeader(400)`, so net/http sends the implicit 200 status and discards the
late WriteHeader as superfluous.  The response therefore has status 200, not
400 as the claim states (the body *is* exactly the JSON error object, and no
image bytes accompany it). -/
theorem handleRequest_missing_url_status_200 :
    handleRequest { url := "", size := "256", watermark := FormFileResult.missing } =
      HandlerOutcome.resp
        { status := some 200, contentType := [],
          body := [Chunk.json (errorJson "Could not determine the desired QR code content.")] }
        false
    ∧ (200 : Nat) ≠ 400 :=
  ⟨rfl, by decide⟩

/-- Claim C3, counterexample: the size field `"0"` does not parse as a
*positive* integer, yet the request is not rejected — `strconv.Atoi` succeeds
on `"0"`, validation passes, the QR encoder runs (the `encoderRan` flag of the
outcome is `true`) and a 200 image response is produced instead of an error
response. -/
theorem handleRequest_size_zero_not_rejected :
    goAtoi "0" = some 0
    ∧ (∃ img : Image,
        handleRequest { url := "https://example.com", size := "0", watermark := FormFileResult.missing } =
          HandlerOutcome.resp
            { status := some 200, contentType := ["image/png"],
              body := [Chunk.image (pngEncode img)] }
            true) :=
  ⟨rfl, ⟨qrSymbol "https://example.com" 0, rfl⟩⟩

/-- Claim C3 as amended: only a size field that fails to parse as an integer
at all (empty, non-numeric, or out of the 64-bit range) is rejected; every
such request receives a JSON error response and the outcome records that no
QR encoding work was performed. -/
theorem handleRequest_unparsable_size_rejected (req : Request)
    (h : goAtoi req.size = none) :
    ∃ w : ResponseWriter,
      handleRequest req = HandlerOutcome.resp w false
      ∧ ∃ msg : String, w.body = [Chunk.json (errorJson msg)] := by
  obtain ⟨url, s, wm⟩ := req
  have h' : goAtoi s = none := h
  by_cases hu : url = ""
  · subst hu
    exact ⟨_, rfl, "Could not determine the desired QR code content.", rfl⟩
  · refine
      ⟨{ status := some 200, contentType := [],
         body := [Chunk.json (errorJson
           ("Could not determine the desired QR code size:" ++ atoiErrText s))] },
       ?_, "Could not determine the desired QR code size:" ++ atoiErrText s, rfl⟩
    simp only [handleRequest]
    rw [if_neg hu, h']
    rfl

theorem handleRequest_unparsable_size_rejected_witness :
    goAtoi "abc" = none
    ∧ ∃ w : ResponseWriter,
        handleRequest { url := "x", size := "abc", watermark := FormFileResult.missing } =
          HandlerOutcome.resp w false
        ∧ ∃ msg : String, w.body = [Chunk.json (errorJson msg)] :=
  ⟨rfl, handleRequest_unparsable_size_rejected
    { url := "x", size := "abc", watermark := FormFileResult.missing } rfl⟩

/-- Claim C4 is refuted by the code: when the watermark field is present but
`FormFile` fails with an error other than `http.ErrMissingFile`, the guard
`err != nil && errors.Is(err, http.ErrMissingFile)` correctly skips the
no-watermark branch, but execution then passes the nil `multipart.File` to
`uploadWatermarkImage`, whose `io.Copy` calls `Read` on a nil interface and
panics.  The caller gets an aborted request, not the error response the claim
promises. -/
theorem handleRequest_formfile_other_error_panics :
    handleRequest { url := "https://example.com", size := "256", watermark := FormFileResult.otherErr } =
      HandlerOutcome.panicked :=
  rfl

/-- Claim C5 is partly refuted by the code: a watermark whose bytes do not
sniff as PNG (here: plain text) never produces a 200 response carrying a
corrupt image — the pipeline fails (at the resize stage, since the PNG
content-type check tests a stale error variable and never fires) and the body
is exactly the JSON error object — but the status accompanying that JSON body
is the implicit 200, not the 400 the claim states, because the body is
written before `WriteHeader(400)`. -/
theorem handleRequest_text_watermark_status_200 :
    detectContentType (Bytes.raw [104, 101, 108, 108, 111]) ≠ "image/png"
    ∧ handleRequest
        { url := "https://example.com", size := "256",
          watermark := FormFileResult.ok (Bytes.raw [104, 101, 108, 108, 111]) false } =
      HandlerOutcome.resp
        { status := some 200, contentType := [],
          body := [Chunk.json (errorJson "Could not resize the watermark image.")] }
        false :=
  ⟨by decide, rfl⟩

/-- Claim C6: the compositing offset used by `addWatermark` is
`(size / 2 - 32, size / 2 - 32)` with Go (truncating) integer division, where
32 is half the fixed watermark target width `WATERMARK_WIDTH = 64`; the
composite draws the watermark at exactly the footprint
`wm.bounds + addWatermarkOffset size`, a function of the requested size and
the constant alone, never of the decoded watermark dimensions. -/
theorem addWatermark_offset_spec (size : Int) (code : simpleQRCode) (base wm : Image) :
    addWatermarkOffset size = { x := Int.tdiv size 2 - 32, y := Int.tdiv size 2 - 32 }
    ∧ (32 : Int) = Int.tdiv (WATERMARK_WIDTH : Int) 2
    ∧ code.addWatermark (Bytes.png base) (Bytes.png wm) size =
        Except.ok (Bytes.png
          (drawDraw (drawDraw (newRGBA base.bounds) base.bounds base Pt.zero Op.src)
            (Rect.add wm.bounds (addWatermarkOffset size)) wm Pt.zero Op.over)) :=
  ⟨rfl, by decide, rfl⟩

/-- The QR-generation-failure branch of the handler is live: for content
beyond the encoder capacity, `qrcode.Encode` errors and the handler surfaces
the wrapped message as the JSON error body (with the implicit 200 status, as
on every failure path). -/
theorem handleRequest_overlong_url_error (url s : String) (size : Int)
    (hu : url ≠ "") (hlong : qrMaxContentLen < url.length) (hs : goAtoi s = some size) :
    handleRequest { url := url, size := s, watermark := FormFileResult.missing } =
      HandlerOutcome.resp
        { status := some 200, contentType := [],
          body := [Chunk.json (errorJson ("Could not generate QR code. " ++
            ("could not generate a QR code: " ++ "content too long to encode")))] }
        true := by
  have hs' : goAtoi s = some size := hs
  simp only [handleRequest]
  rw [if_neg hu, hs']
  simp only [Request.formFileWatermark, simpleQRCode.Generate, qrcodeEncode]
  rw [if_neg hu, if_pos hlong]
  rfl

/-- Claim C7: for base and watermark images with canonical (zero-min) bounds
as png decoding produces them, `addWatermark` succeeds with an output whose
bounds are exactly the base bounds; inside the base, pixels outside the
offset watermark footprint equal the base pixel, pixels inside the footprint
are the source-over blend of the watermark pixel onto the base pixel, and any
part of the footprint outside the base bounds is silently clipped: the call
still succeeds and nothing is written outside the base bounds. -/
theorem addWatermark_composite_spec (code : simpleQRCode) (base wm : Image) (size : Int)
    (hb : base.bounds.min = Pt.zero) (hw : wm.bounds.min = Pt.zero) :
    ∃ out : Image,
      code.addWatermark (pngEncode base) (pngEncode wm) size = Except.ok (pngEncode out)
      ∧ out.bounds = base.bounds
      ∧ (∀ p : Pt, Rect.Mem base.bounds p →
          ¬Rect.Mem (Rect.add wm.bounds (addWatermarkOffset size)) p →
          out.pix p = base.pix p)
      ∧ (∀ p : Pt, Rect.Mem base.bounds p →
          Rect.Mem (Rect.add wm.bounds (addWatermarkOffset size)) p →
          out.pix p = overBlend (wm.pix (Pt.sub p (addWatermarkOffset size))) (base.pix p))
      ∧ (∀ p : Pt, ¬Rect.Mem base.bounds p → out.pix p = zeroColor) := by
  refine ⟨drawDraw (drawDraw (newRGBA base.bounds) base.bounds base Pt.zero Op.src)
      (Rect.add wm.bounds (addWatermarkOffset size)) wm Pt.zero Op.over, rfl, rfl, ?_, ?_, ?_⟩
  · intro p hpb hpf
    rw [drawOver_pix _ wm _ hw p, if_neg (fun hc => hpf hc.1), drawSrc_pix base hb p,
      if_pos hpb]
  · intro p hpb hpf
    rw [drawOver_pix _ wm _ hw p, if_pos ⟨hpf, hpb⟩, drawSrc_pix base hb p, if_pos hpb]
  · intro p hpb
    rw [drawOver_pix _ wm _ hw p, if_neg (fun hc => hpb hc.2), drawSrc_pix base hb p,
      if_neg hpb]

/-- A concrete 4 by 4 opaque base image with zero-min bounds, for evaluating
the compositing theorem. -/
def testBase : Image :=
  { bounds := { min := Pt.zero, max := { x := 4, y := 4 } }
    pix := fun _ => { r := 1000, g := 2000, b := 3000, a := 65535 } }

/-- A concrete 2 by 2 translucent watermark image with zero-min bounds. -/
def testWm : Image :=
  { bounds := { min := Pt.zero, max := { x := 2, y := 2 } }
    pix := fun _ => { r := 500, g := 600, b := 700, a := 30000 } }

theorem addWatermark_composite_spec_witness :
    ∃ out : Image,
      simpleQRCode.addWatermark { Content := "x", Size := 4 }
          (pngEncode testBase) (pngEncode testWm) 4 = Except.ok (pngEncode out)
      ∧ out.bounds = testBase.bounds
      ∧ (∀ p : Pt, Rect.Mem testBase.bounds p →
          ¬Rect.Mem (Rect.add testWm.bounds (addWatermarkOffset 4)) p →
          out.pix p = testBase.pix p)
      ∧ (∀ p : Pt, Rect.Mem testBase.bounds p →
          Rect.Mem (Rect.add testWm.bounds (addWatermarkOffset 4)) p →
          out.pix p = overBlend (testWm.pix (Pt.sub p (addWatermarkOffset 4))) (testBase.pix p))
      ∧ (∀ p : Pt, ¬Rect.Mem testBase.bounds p → out.pix p = zeroColor) :=
  addWatermark_composite_spec { Content := "x", Size := 4 } testBase testWm 4 rfl rfl

/-- Claim C8: the request pipeline is a deterministic function of the url, the
size field and the watermark field; two requests agreeing on those three
inputs produce identical outcomes, in particular byte-identical response
bodies. -/
theorem handleRequest_deterministic (r1 r2 : Request) (hu : r1.url = r2.url)
    (hs : r1.size = r2.size) (hw : r1.watermark = r2.watermark) :
    handleRequest r1 = handleRequest r2 := by
  obtain ⟨u1, s1, w1⟩ := r1
  obtain ⟨u2, s2, w2⟩ := r2
  cases hu
  cases hs
  cases hw
  rfl

theorem handleRequest_deterministic_witness :
    handleRequest { url := "https://example.com", size := "256", watermark := FormFileResult.missing } =
      handleRequest { url := "https://example.com", size := "256", watermark := FormFileResult.missing } :=
  handleRequest_deterministic
    { url := "https://example.com", size := "256", watermark := FormFileResult.missing }
    { url := "https://example.com", size := "256", watermark := FormFileResult.missing }
    rfl rfl rfl

/-- Claim C9: `createErrorResponse` always returns the JSON encoding of the
one-key object mapping `error` to the message; marshalling a map from string
to string cannot fail, so the `log.Fatalln` branch (the `none` outcome) is
unreachable and the returned payload is a non-empty JSON byte slice. -/
theorem createErrorResponse_spec (message : String) :
    createErrorResponse message = some (errorJson message)
    ∧ errorJson message ≠ "" := by
  refine ⟨rfl, fun h => ?_⟩
  have hlen : (errorJson message).length = 0 := by rw [h]; rfl
  have h1 : ("\x7b\"error\":\"" : String).length = 10 := rfl
  have h2 : ("\"\x7d" : String).length = 2 := rfl
  rw [errorJson, String.length_append, String.length_append, h1, h2] at hlen
  omega

/-- Claim C10: `Generate`, `GenerateWithWatermark` and `addWatermark` never
mutate the receiver: threading the pointer receiver through each method
returns it with `Content` and `Size` unchanged. -/
theorem simpleQRCode_methods_preserve_receiver (code : simpleQRCode)
    (watermark qrCode : Bytes) (size : Int) :
    (code.GenerateSt.1.Content = code.Content ∧ code.GenerateSt.1.Size = code.Size)
    ∧ ((code.GenerateWithWatermarkSt watermark).1.Content = code.Content
        ∧ (code.GenerateWithWatermarkSt watermark).1.Size = code.Size)
    ∧ ((code.addWatermarkSt qrCode watermark size).1.Content = code.Content
        ∧ (code.addWatermarkSt qrCode watermark size).1.Size = code.Size) := by
  have hfst : (code.GenerateWithWatermarkSt watermark).1 = code := by
    unfold simpleQRCode.GenerateWithWatermarkSt
    dsimp only [simpleQRCode.GenerateSt, simpleQRCode.addWatermarkSt]
    rcases code.Generate with e | qr
    · rfl
    · dsimp only
      rcases code.addWatermark qr watermark code.Size with e | q2 <;> rfl
  exact ⟨⟨rfl, rfl⟩, ⟨by rw [hfst], by rw [hfst]⟩, rfl, rfl⟩

end QRService
